import Mathlib

namespace SwiftFind

/-- A searchable item, translated from `SearchItem` in `apps/core/src/model.rs`
(Task 4 of the MVP implementation plan): `id`, `kind`, `title`, `path`, all strings.
Strings are modelled as lists of characters (the repository only exercises ASCII data,
where Rust byte slicing and char operations agree with the char-list model). -/
structure SearchItem where
  id : List Char
  kind : List Char
  title : List Char
  path : List Char
deriving DecidableEq

/-- ASCII lowercasing of a character list, modelling Rust `str::to_lowercase`. -/
def lowerAscii (s : List Char) : List Char := s.map Char.toLower

/-- Removal of every occurrence of a character, modelling Rust
`str::replace(c, "")` with the empty replacement string. -/
def dropChar (c : Char) (s : List Char) : List Char := s.filter (fun a => a ≠ c)

/-- Substring test, modelling Rust `str::contains` with a string pattern:
`isSubstr n h` holds when `n` occurs contiguously inside `h`. -/
def isSubstr (n : List Char) : List Char → Bool
  | [] => n.isEmpty
  | c :: t => n.isPrefixOf (c :: t) || isSubstr n t

/-- Translated from `search` in `apps/core/src/search.rs` (Task 5 of the MVP plan):
lowercase the query and delete spaces, keep the items whose lowercased title with
underscores deleted contains the first `min 2 q.length` characters of the processed
query as a substring, and truncate the result to `limit` entries.
Rust `&q[..2.min(q.len())]` slices bytes; on the ASCII data of this repository that
is `List.take 2`. -/
def search (items : List SearchItem) (query : List Char) (limit : Nat) : List SearchItem :=
  let q := dropChar ' ' (lowerAscii query)
  let needle := q.take 2
  let out := items.filter (fun i => isSubstr needle (dropChar '_' (lowerAscii i.title)))
  out.take limit

/-- UTF-8 byte length of a character list, modelling Rust `str::len`. -/
def byteLen (s : List Char) : Nat := (s.map Char.utf8Size).sum

/-- Rust byte slicing `&s[..n]` of a UTF-8 string with `n ≤ s.len()`, with the
panic made explicit: returns the characters making up the first `n` bytes when
byte position `n` is a character boundary, and `none` — the Rust
`byte index is not a char boundary` panic — when `n` falls inside a multi-byte
character. -/
def takeBytes : Nat → List Char → Option (List Char)
  | 0, _ => some []
  | _+1, [] => none
  | n+1, c :: t =>
      if c.utf8Size ≤ n+1 then (takeBytes (n+1 - c.utf8Size) t).map (fun r => c :: r)
      else none

/-- Byte-faithful version of `search` from `apps/core/src/search.rs`: identical
to `search` except that the slice `&q[..2.min(q.len())]` is modelled on UTF-8
bytes via `takeBytes`, so the char-boundary panic appears as `none`. The slice
expression sits inside the filter closure, so it is never evaluated when the
item list is empty — in that case the program returns the empty list even for a
query on which the slice would panic. Lowercasing stays character-wise
(`Char.toLower`), which agrees with Rust `to_lowercase` on ASCII and uncased
characters; Rust's full Unicode lowercasing differs only for exotic cased
characters whose lowercase changes the byte layout. -/
def searchChecked (items : List SearchItem) (query : List Char) (limit : Nat) :
    Option (List SearchItem) :=
  let q := dropChar ' ' (lowerAscii query)
  if items.isEmpty then some [] else
  match takeBytes (min 2 (byteLen q)) q with
  | none => none
  | some needle =>
      some ((items.filter
        (fun i => isSubstr needle (dropChar '_' (lowerAscii i.title)))).take limit)

/-- Translated from `Config` in `apps/core/src/config.rs` (Task 7 of the MVP plan):
the implemented configuration struct carries only `max_results` (a `u16`, modelled
as a natural number — the bounds checks involve no wraparound). -/
structure Config where
  max_results : Nat
deriving DecidableEq

/-- Translated from `validate` in `apps/core/src/config.rs`: a configuration with
`max_results` below 5 or above 100 is rejected with an error, everything else is
accepted. No other field is inspected. -/
def validate (cfg : Config) : Except (List Char) Unit :=
  if cfg.max_results < 5 || 100 < cfg.max_results then
    Except.error "max_results out of range".toList
  else
    Except.ok ()

/-- A configuration as described by the repository's own configuration
specification document, which carries `maxResults` together with
`search.typoTolerance` in the configuration file schema. The implemented Rust
`Config` struct has no typo-tolerance field, so this record exists to state the
claim about typo-tolerance validation: running the code's validation on such a
configuration runs `validate` on `max_results` alone. -/
structure FileConfig where
  max_results : Nat
  typo_tolerance : Nat
deriving DecidableEq

/-- The validation the code performs on a full file configuration: `validate`
applied to the single field the implemented `Config` carries. The
`typo_tolerance` value is never read by any validation code in the repository. -/
def validateFileConfig (cfg : FileConfig) : Except (List Char) Unit :=
  validate ⟨cfg.max_results⟩

/-- Result row delivered to the overlay, translated from `SearchResultDto` in
`apps/ui/src/core-contract.ts`. -/
structure SearchResultDto where
  id : List Char
  kind : List Char
  title : List Char
  path : List Char
deriving DecidableEq

/-- State of the `LauncherOverlay` component
(`apps/ui/src/components/LauncherOverlay.tsx`) together with its query-session
bookkeeping. Each run of the search effect is a query session and receives a
fresh session number; the effect cleanup sets the superseded run's `active` flag
to false, so at any time exactly the run numbered `activeSession` still has
`active = true`. `nextSession` is the number the next effect run will receive. -/
structure OverlayState where
  nextSession : Nat
  activeSession : Nat
  results : List SearchResultDto
  selectedIndex : Nat
  error : Option (List Char)
deriving DecidableEq

/-- Events of the overlay's query lifecycle, from `LauncherOverlay.tsx`:
`issue e` is a run of the search effect for a changed query, with `e = true` when
the trimmed query is empty (the component then clears the list synchronously and
starts no search); `resolve s r` is the `searchCommand` promise of session `s`
resolving with rows `r`; `resolveErr s m` is that promise rejecting with
message `m`. -/
inductive OverlayEvent
  | issue (emptyQuery : Bool)
  | resolve (sid : Nat) (res : List SearchResultDto)
  | resolveErr (sid : Nat) (msg : List Char)
deriving DecidableEq

/-- Whether a lifecycle event issues a new query session. -/
def OverlayEvent.isIssue : OverlayEvent → Bool
  | .issue _ => true
  | _ => false

/-- One step of the overlay's query lifecycle, translated from the search effect
in `LauncherOverlay.tsx`: a new issue supersedes the previous session (the effect
cleanup sets its `active` flag to false) and, for an empty trimmed query, clears
results, selection and error synchronously; a resolution or rejection updates the
component state only when its session is still the active one (the code's
`if (!active) return` guard); a rejection is absorbed into an empty result list
plus an error message and is never rethrown. -/
def step (st : OverlayState) : OverlayEvent → OverlayState
  | .issue empty =>
      let st' := { st with activeSession := st.nextSession,
                           nextSession := st.nextSession + 1 }
      if empty then { st' with results := [], selectedIndex := 0, error := none } else st'
  | .resolve sid res =>
      if sid = st.activeSession then
        { st with results := res, selectedIndex := 0, error := none }
      else st
  | .resolveErr sid msg =>
      if sid = st.activeSession then
        { st with results := [], selectedIndex := 0, error := some msg }
      else st

/-- Folding a list of lifecycle events over an overlay state. -/
def run (st : OverlayState) (es : List OverlayEvent) : OverlayState := es.foldl step st

/-- Successful core responses, translated from `CoreResponse` in
`apps/ui/src/core-contract.ts`: a `Search` response carrying result rows or a
`Launch` response carrying the `launched` flag. -/
inductive CoreResponse
  | searchResp (results : List SearchResultDto)
  | launchResp (launched : Bool)
deriving DecidableEq

/-- Transport-level responses, translated from `TransportResponse` in
`apps/ui/src/core-contract.ts`: status `ok` with an inner response, or status
`err` with an error message. -/
inductive TransportResponse
  | ok (response : CoreResponse)
  | err (message : List Char)
deriving DecidableEq

/-- Translated from `send` in `apps/ui/src/core-client.ts`, applied to the
transport response the bridge produced: an `err` status becomes a thrown `Error`
carrying the transport message, an `ok` status yields the inner response. (When
the bridge itself is absent, `send` throws before any transport response exists,
so every delivered response passes through this match.) -/
def send : TransportResponse → Except (List Char) CoreResponse
  | .err m => Except.error m
  | .ok r => Except.ok r

/-- Translated from `launchCommand` in `apps/ui/src/core-client.ts`: forwards the
transport response through `send`, throws on a response of any kind other than
`Launch`, throws when `payload.launched` is false, and resolves otherwise. -/
def launchCommand (resp : TransportResponse) : Except (List Char) Unit :=
  match send resp with
  | Except.error m => Except.error m
  | Except.ok (.searchResp _) =>
      Except.error "Unexpected response kind for launch command".toList
  | Except.ok (.launchResp launched) =>
      if launched then Except.ok ()
      else Except.error "Launch command returned unsuccessful state".toList

/-- Modelled from the spec: strips a trailing filename extension (the final dot
and everything after it), leaving inputs without a dot unchanged. The repository
contains no Tokenizer implementation; this step is fixed by the normative
example, in which no token derives from the `exe` extension. -/
def stripExt (s : List Char) : List Char :=
  let r := s.reverse.dropWhile (fun c => c ≠ '.')
  if r.isEmpty then s else (r.drop 1).reverse

/-- Modelled from the spec: splits a character list into its maximal runs of
alphanumeric characters, so that whitespace, path separators and punctuation all
act as token boundaries. -/
def splitRuns (s : List Char) : List (List Char) :=
  let raw := s.foldr (fun c acc =>
    match acc with
    | [] => if c.isAlphanum then [[c]] else [[]]
    | r :: rs => if c.isAlphanum then (c :: r) :: rs else [] :: r :: rs) [[]]
  raw.filter (fun r => ¬ r.isEmpty)

/-- Modelled from the spec: splits one alphanumeric run at camelCase boundaries,
i.e. before an uppercase character that follows a non-uppercase character. -/
def camelSplitAux : List Char → List Char → List (List Char)
  | acc, [] => if acc.isEmpty then [] else [acc.reverse]
  | acc, c :: t =>
      match acc with
      | p :: _ =>
          if c.isUpper && !p.isUpper then acc.reverse :: camelSplitAux [c] t
          else camelSplitAux (c :: acc) t
      | [] => camelSplitAux [c] t

/-- Modelled from the spec: camelCase splitting of a run, driven by `camelSplitAux`. -/
def camelSplit (s : List Char) : List (List Char) := camelSplitAux [] s

/-- Modelled from the spec: the lowercased sub-tokens of a text — strip the
trailing extension, split on whitespace, path separators and punctuation, split
each run at camelCase boundaries, lowercase each piece. -/
def subTokens (text : List Char) : List (List Char) :=
  (((splitRuns (stripExt text)).map camelSplit).flatten).map lowerAscii

/-- Modelled from the spec: the Tokenizer of section 4.1, which has no
implementation in the repository. It emits the sub-tokens, then one compound
token concatenating all sub-tokens and, for multi-word titles, one acronym
token. The normative example fixes the two points the rule text leaves open: a
trailing file extension contributes no token, and the acronym is the initials of
the leading sub-tokens followed by the final sub-token written out in full
(giving `vscode` rather than the bare initials `vsc`). -/
def tokenize (text : List Char) : List (List Char) :=
  let subs := subTokens text
  let compound := subs.flatten
  let acronym := (subs.dropLast.map (fun t => t.take 1)).flatten ++ (subs.getLastD [])
  subs ++ [compound] ++ (if 2 ≤ subs.length then [acronym] else [])

/-- Modelled from the spec: an item as seen by the Scoring Model of section 4.5
(which has no implementation in the repository) — its textual identity, kind,
recency field and usage counter. -/
structure ScoredItem where
  title : List Char
  kind : List Char
  last_used_at : Option Nat
  use_count : Nat

/-- Modelled from the spec: a fixed query context for the Scoring Model —
the three text-match components as functions of the item's title (the query
itself is fixed inside the context), the configuration-bounded weights, the
recency-decay curve and the kind bias. -/
structure QueryContext where
  exact_match_boost : List Char → ℝ
  prefix_match_boost : List Char → ℝ
  fuzzy_distance_score : List Char → ℝ
  usage_weight : ℝ
  recency_weight : ℝ
  recency_decay : Option Nat → ℝ
  kind_bias : List Char → ℝ

/-- Modelled from the spec: the composite scoring formula of section 4.5,
`score = exact_match_boost + prefix_match_boost + fuzzy_distance_score
+ usage_weight * log(1 + use_count) + recency_weight * recency_decay(last_used_at)
plus-or-minus kind_bias`, with the signed kind bias carried by the context. -/
noncomputable def score (ctx : QueryContext) (it : ScoredItem) : ℝ :=
  ctx.exact_match_boost it.title + ctx.prefix_match_boost it.title
    + ctx.fuzzy_distance_score it.title
    + ctx.usage_weight * Real.log (1 + it.use_count)
    + ctx.recency_weight * ctx.recency_decay it.last_used_at
    + ctx.kind_bias it.kind

theorem isSubstr_nil (l : List Char) : isSubstr [] l = true := by
  cases l <;> rfl

theorem step_wf (st : OverlayState) (e : OverlayEvent)
    (h : st.activeSession < st.nextSession) :
    (step st e).activeSession < (step st e).nextSession := by
  cases e with
  | issue b => cases b <;> simp [step]
  | resolve sid res => by_cases hs : sid = st.activeSession <;> simp [step, hs] <;> omega
  | resolveErr sid msg => by_cases hs : sid = st.activeSession <;> simp [step, hs] <;> omega

theorem step_active_le (st : OverlayState) (e : OverlayEvent)
    (h : st.activeSession < st.nextSession) :
    st.activeSession ≤ (step st e).activeSession := by
  cases e with
  | issue b => cases b <;> simp [step] <;> omega
  | resolve sid res => by_cases hs : sid = st.activeSession <;> simp [step, hs]
  | resolveErr sid msg => by_cases hs : sid = st.activeSession <;> simp [step, hs]

theorem run_wf_active_le (st : OverlayState) (es : List OverlayEvent)
    (h : st.activeSession < st.nextSession) :
    (run st es).activeSession < (run st es).nextSession ∧
      st.activeSession ≤ (run st es).activeSession := by
  induction es generalizing st with
  | nil => exact ⟨h, Nat.le_refl _⟩
  | cons e rest ih =>
      have h1 := step_wf st e h
      have h2 := step_active_le st e h
      have h3 := ih (step st e) h1
      exact ⟨h3.1, Nat.le_trans h2 h3.2⟩

theorem step_issue_active_lt (st : OverlayState) (b : Bool)
    (h : st.activeSession < st.nextSession) :
    st.activeSession < (step st (OverlayEvent.issue b)).activeSession := by
  cases b <;> simp [step] <;> omega

theorem step_not_issue_active_eq (st : OverlayState) (e : OverlayEvent)
    (hni : e.isIssue = false) :
    (step st e).activeSession = st.activeSession := by
  cases e with
  | issue b => simp [OverlayEvent.isIssue] at hni
  | resolve sid res => by_cases hs : sid = st.activeSession <;> simp [step, hs]
  | resolveErr sid msg => by_cases hs : sid = st.activeSession <;> simp [step, hs]

theorem run_active_lt_of_issue (st : OverlayState) (es : List OverlayEvent)
    (h : st.activeSession < st.nextSession)
    (he : ∃ e ∈ es, e.isIssue = true) :
    st.activeSession < (run st es).activeSession := by
  induction es generalizing st with
  | nil => rcases he with ⟨e, hmem, _⟩; cases hmem
  | cons e rest ih =>
      have hrun : run st (e :: rest) = run (step st e) rest := rfl
      by_cases hie : e.isIssue = true
      · cases e with
        | issue b =>
            have h1 := step_issue_active_lt st b h
            have h2 := (run_wf_active_le (step st (OverlayEvent.issue b)) rest
              (step_wf st (OverlayEvent.issue b) h)).2
            rw [hrun]
            exact Nat.lt_of_lt_of_le h1 h2
        | resolve sid res => simp [OverlayEvent.isIssue] at hie
        | resolveErr sid msg => simp [OverlayEvent.isIssue] at hie
      · have hni : e.isIssue = false := by
          cases hfe : e.isIssue
          · rfl
          · exact absurd hfe hie
        have hrest : ∃ x ∈ rest, x.isIssue = true := by
          rcases he with ⟨x, hmem, hx⟩
          rcases List.mem_cons.mp hmem with rfl | hmem'
          · exact absurd hx hie
          · exact ⟨x, hmem', hx⟩
        have heq := step_not_issue_active_eq st e hni
        have hlt := ih (step st e) (step_wf st e h) hrest
        rw [hrun]
        rw [heq] at hlt
        exact hlt

/-- Claim C1: with the index containing exactly the item with id 1 and title
`Q4_Report.xlsx`, `search "q4 reort" 10` returns the id-1 item as the top (and
only) result. The configured typo tolerance of 2 plays no role: the implemented
`search` takes no typo-tolerance input, so the statement holds under that (or
any) configuration. -/
theorem typo_query_returns_expected_match :
    search [⟨"1".toList, "file".toList, "Q4_Report.xlsx".toList, "C:\\Q4_Report.xlsx".toList⟩]
        "q4 reort".toList 10 =
      [⟨"1".toList, "file".toList, "Q4_Report.xlsx".toList, "C:\\Q4_Report.xlsx".toList⟩] := by
  decide

/-- Claim C2: `tokenize "VisualStudioCode.exe"` yields exactly the tokens
`visual`, `studio`, `code`, the compound token `visualstudiocode`
(concatenation of all sub-tokens) and the acronym token `vscode`, in this
order and nothing else. -/
theorem tokenize_visualstudiocode :
    tokenize "VisualStudioCode.exe".toList =
      ["visual".toList, "studio".toList, "code".toList,
       "visualstudiocode".toList, "vscode".toList] := by
  decide

/-- Claim C3 (counterexample): a configuration whose `typo_tolerance` is 9 —
outside `[0,3]` — passes validation untouched, because the implemented
validation inspects only `max_results`; so the claim that every configuration
with out-of-range typo tolerance is rejected is false at this input. -/
theorem validate_accepts_out_of_range_typo_tolerance :
    3 < (FileConfig.mk 20 9).typo_tolerance ∧
      validateFileConfig (FileConfig.mk 20 9) = Except.ok () :=
  ⟨by decide, rfl⟩

/-- Claim C3 (amended): validation accepts a configuration exactly when its
`max_results` lies in `[5,100]`; in particular every configuration whose
`max_results` lies outside `[5,100]` is rejected. The implemented configuration
carries no typo-tolerance field and no typo-tolerance check exists. -/
theorem validate_ok_iff_max_results_in_bounds (cfg : Config) :
    validate cfg = Except.ok () ↔ 5 ≤ cfg.max_results ∧ cfg.max_results ≤ 100 := by
  simp only [validate]
  split
  · rename_i hcond
    simp only [Bool.or_eq_true, decide_eq_true_eq] at hcond
    constructor
    · intro hcontra
      exact absurd hcontra (by simp)
    · intro hb
      omega
  · rename_i hcond
    simp only [Bool.or_eq_true, decide_eq_true_eq, not_or] at hcond
    constructor
    · intro _
      omega
    · intro _
      rfl

/-- Claim C4: if, while query session S1 (the currently active session of state
`st`) is still in flight, the event list `mid` occurs and contains the issue of
a newer session S2, then S1 is superseded: when S1's search finally resolves,
the overlay state is left completely unchanged — S1's results are never
delivered to the caller. -/
theorem superseded_session_never_delivered (st : OverlayState)
    (h : st.activeSession < st.nextSession)
    (mid : List OverlayEvent) (hmid : ∃ e ∈ mid, e.isIssue = true)
    (res : List SearchResultDto) :
    step (run st mid) (OverlayEvent.resolve st.activeSession res) = run st mid := by
  have hlt := run_active_lt_of_issue st mid h hmid
  have hne : st.activeSession ≠ (run st mid).activeSession := Nat.ne_of_lt hlt
  simp [step, hne]

/-- Claim C4 (witness): from the well-formed initial state where session 0 is
active and session 1 is next, issuing a new query session and then resolving
session 0 with a nonempty result list changes nothing. -/
theorem superseded_session_never_delivered_witness :
    step (run (OverlayState.mk 1 0 [] 0 none) [OverlayEvent.issue false])
        (OverlayEvent.resolve 0 [SearchResultDto.mk "1".toList "app".toList "A".toList "p".toList]) =
      run (OverlayState.mk 1 0 [] 0 none) [OverlayEvent.issue false] :=
  superseded_session_never_delivered (OverlayState.mk 1 0 [] 0 none) (by decide)
    [OverlayEvent.issue false] (by decide)
    [SearchResultDto.mk "1".toList "app".toList "A".toList "p".toList]

/-- Claim C5: for a fixed query context whose usage weight is nonnegative (the
configuration bounds it to `[0,1]`), two items identical in every field except
`use_count` score in the order of their use counts: the item with the larger
`use_count` scores at least as high. -/
theorem score_monotone_in_use_count (ctx : QueryContext)
    (hw : 0 ≤ ctx.usage_weight) (A B : ScoredItem)
    (ht : A.title = B.title) (hk : A.kind = B.kind)
    (hl : A.last_used_at = B.last_used_at) (hu : B.use_count < A.use_count) :
    score ctx B ≤ score ctx A := by
  unfold score
  rw [ht, hk, hl]
  have hcast : (B.use_count : ℝ) ≤ (A.use_count : ℝ) := by
    exact_mod_cast Nat.le_of_lt hu
  have hlog : Real.log (1 + (B.use_count : ℝ)) ≤ Real.log (1 + (A.use_count : ℝ)) := by
    gcongr
  have hmul := mul_le_mul_of_nonneg_left hlog hw
  linarith

/-- Claim C5 (witness): with all text components and the recency and kind terms
zero and both weights one half, the item with use count 3 scores at least as
high as the otherwise identical item with use count 1. -/
theorem score_monotone_in_use_count_witness :
    score (QueryContext.mk (fun _ => 0) (fun _ => 0) (fun _ => 0) (1 / 2) (1 / 2)
        (fun _ => 0) (fun _ => 0))
        (ScoredItem.mk "a".toList "app".toList none 1) ≤
      score (QueryContext.mk (fun _ => 0) (fun _ => 0) (fun _ => 0) (1 / 2) (1 / 2)
        (fun _ => 0) (fun _ => 0))
        (ScoredItem.mk "a".toList "app".toList none 3) :=
  score_monotone_in_use_count _ (by norm_num) _ _ rfl rfl rfl (by norm_num)

/-- Claim C6 (counterexample): the claim does not hold for every query string.
On the query `日` — a single character of three UTF-8 bytes, whose processed
form has byte length 3 — with a nonempty item list, the slice `&q[..2]` does
not land on a character boundary, so the program panics inside the filter
closure instead of returning a list of at most 10 results. -/
theorem search_panics_on_multibyte_query :
    searchChecked [SearchItem.mk "1".toList "app".toList "A".toList "p".toList]
      "日".toList 10 = none := by
  decide

/-- Claim C6 (amended): for every item list, query and limit `n` on which the
byte slice of the processed query lands on a character boundary — so the
program returns a list rather than panicking; every ASCII query qualifies —
`search` returns at most `n` results (the candidate list is truncated to the
limit), and the returned list is an in-order selection from the input items. -/
theorem searchChecked_at_most_limit (items : List SearchItem) (query : List Char)
    (n : Nat) (r : List SearchItem) (h : searchChecked items query n = some r) :
    r.length ≤ n ∧ r.Sublist items := by
  by_cases hi : items.isEmpty
  · simp only [searchChecked, hi, if_true] at h
    cases h
    exact ⟨Nat.zero_le n, List.nil_sublist _⟩
  · rcases htb : takeBytes
        (min 2 (byteLen (dropChar ' ' (lowerAscii query))))
        (dropChar ' ' (lowerAscii query)) with _ | needle
    · rw [searchChecked] at h
      simp [hi, htb] at h
    · rw [searchChecked] at h
      simp only [hi, if_false, htb] at h
      cases h
      exact ⟨List.length_take_le _ _,
        (List.take_sublist _ _).trans (List.filter_sublist _)⟩

/-- Claim C6 (witness): on the one-item list with title `About`, the ASCII query
`ab` and limit 1, the slice lands on a boundary, `searchChecked` returns the
matching item, and the amended bound holds. -/
theorem searchChecked_at_most_limit_witness :
    ([SearchItem.mk "1".toList "app".toList "About".toList "p".toList].length ≤ 1) ∧
      ([SearchItem.mk "1".toList "app".toList "About".toList "p".toList].Sublist
        [SearchItem.mk "1".toList "app".toList "About".toList "p".toList]) :=
  searchChecked_at_most_limit
    [SearchItem.mk "1".toList "app".toList "About".toList "p".toList]
    "ab".toList 1
    [SearchItem.mk "1".toList "app".toList "About".toList "p".toList]
    (by decide)

/-- Claim C7: a failing search never propagates an exception to the caller. The
rejection event is absorbed by the overlay's catch handler: either the session
was already superseded and the state is untouched, or the caller receives the
empty result set together with the error message as status indicator. -/
theorem query_failure_absorbed (st : OverlayState) (sid : Nat) (msg : List Char) :
    step st (OverlayEvent.resolveErr sid msg) = st ∨
      ((step st (OverlayEvent.resolveErr sid msg)).results = [] ∧
        (step st (OverlayEvent.resolveErr sid msg)).error = some msg ∧
        (step st (OverlayEvent.resolveErr sid msg)).selectedIndex = 0) := by
  by_cases hs : sid = st.activeSession
  · right
    simp [step, hs]
  · left
    simp [step, hs]

/-- Claim C9: a query consisting only of spaces (including the empty query)
matches every item: `search` returns the first `min n (items.length)` items of
the input unchanged and in their original order. -/
theorem search_blank_query (items : List SearchItem) (query : List Char) (n : Nat)
    (h : ∀ c ∈ query, c = ' ') : search items query n = items.take n := by
  have hq : dropChar ' ' (lowerAscii query) = [] := by
    simp only [dropChar, lowerAscii, List.filter_eq_nil_iff]
    intro a ha
    rcases List.mem_map.mp ha with ⟨c, hc, rfl⟩
    rw [h c hc]
    decide
  simp [search, hq, isSubstr_nil]

/-- Claim C9 (witness): on a two-item index with a two-space query and limit 1,
`search` returns exactly the first item. -/
theorem search_blank_query_witness :
    search [SearchItem.mk "1".toList "app".toList "Alpha".toList "p".toList,
            SearchItem.mk "2".toList "app".toList "Beta".toList "q".toList]
        "  ".toList 1 =
      List.take 1 [SearchItem.mk "1".toList "app".toList "Alpha".toList "p".toList,
                   SearchItem.mk "2".toList "app".toList "Beta".toList "q".toList] :=
  search_blank_query _ "  ".toList 1 (by decide)

/-- Claim C10: `launchCommand` resolves exactly when the transport response has
status `ok`, kind `Launch`, and `launched = true`; on an `err` status, a
response of any other kind, or `launched = false` it throws an error instead. -/
theorem launchCommand_ok_iff_launched (resp : TransportResponse) :
    launchCommand resp = Except.ok () ↔
      resp = TransportResponse.ok (CoreResponse.launchResp true) := by
  cases resp with
  | err m => simp [launchCommand, send]
  | ok r =>
      cases r with
      | searchResp rs => simp [launchCommand, send]
      | launchResp b => cases b <;> simp [launchCommand, send]

end SwiftFind
